import Mathlib

/-!
Verification of the session-types library (`src/lib.rs`, `src/mpsc.rs`).

The type-level protocol descriptors of the Rust source (`Eps`, `Send`,
`Recv`, `Choose`, `Offer`, `Rec`, `Var` with Peano depth) are embedded as a
value-level inductive `Proto`; payload kinds (the Rust type parameter `A`)
are embedded as `Nat` tags.  The `Chan<E, T>` handle — a `(Sender, Receiver,
PhantomData<(E, T)>)` triple — is embedded as a structure holding the two
transport endpoint identities together with the value-level rendering of its
phantom environment stack `E` and protocol `T`.  The in-flight state of the
two underlying mpsc queues is an explicit `Net` value threaded through the
operations.
-/

namespace Sessions

/-- Protocol descriptors, value-level rendering of the zero-sized marker
types of lib.rs lines 99-120: `Eps`, `Recv<A,R>`, `Send<A,R>`,
`Choose<R,S>`, `Offer<R,S>`, `Rec<R>`, `Var<V>`.  The payload type
parameter `A` becomes a `Nat` kind tag, the Peano number `V` a `Nat`. -/
inductive Proto : Type where
  | eps : Proto
  | send (A : Nat) (R : Proto) : Proto
  | recv (A : Nat) (R : Proto) : Proto
  | choose (R S : Proto) : Proto
  | offer (R S : Proto) : Proto
  | Rec (R : Proto) : Proto
  | var (V : Nat) : Proto
deriving DecidableEq, Repr

/-- The `Dual` trait of lib.rs lines 123-145, as a boolean relation.  One
clause per `unsafe impl`: `(Eps, Eps)`; `(Send<A,T>, Recv<A,U>)` and
`(Recv<A,T>, Send<A,U>)` given `(T, U): Dual` (the same `A` on both sides,
rendered as kind-tag equality); `(Choose<R,Rn>, Offer<S,Sn>)` and
`(Offer<R,Rn>, Choose<S,Sn>)` given `(R,S): Dual` and `(Rn,Sn): Dual`;
`(Var<Z>, Var<Z>)` and `(Var<S<N>>, Var<S<N>>)` given `(Var<N>, Var<N>)`,
which collapses to equality of the two depths; `(Rec<T>, Rec<U>)` given
`(T, U): Dual`. -/
def dual : Proto → Proto → Bool
  | Proto.eps, Proto.eps => true
  | Proto.send A T, Proto.recv B U => A == B && dual T U
  | Proto.recv A T, Proto.send B U => A == B && dual T U
  | Proto.choose R Rn, Proto.offer S Sn => dual R S && dual Rn Sn
  | Proto.offer R Rn, Proto.choose S Sn => dual R S && dual Rn Sn
  | Proto.var m, Proto.var n => m == n
  | Proto.Rec T, Proto.Rec U => dual T U
  | _, _ => false

/-- The `EnvDual` trait of lib.rs lines 148-154: `((), ())` holds, and
`((R, T), (R_, T_))` holds given `(R, R_): Dual` and `(T, T_): EnvDual`.
The nested-pair environment types become lists of protocols. -/
def envDual : List Proto → List Proto → Bool
  | [], [] => true
  | R :: T, R2 :: T2 => dual R R2 && envDual T T2
  | _, _ => false

/-- A type-erased boxed message travelling through one mpsc queue
(`Box<u8>` in the source).  A box either holds a payload of some kind
(written by `unsafe_write_chan` from `Chan::send`) or the boolean choice
discriminant (written by `Chan::sel1`/`Chan::sel2`). -/
inductive Msg : Type where
  | val (kind : Nat) (data : Nat) : Msg
  | discr (b : Bool) : Msg
deriving DecidableEq, Repr

/-- Observable state of the two std mpsc channels backing one session
(`borrow_accept`/`session_channel` create channels 1 and 2): the buffered
messages of each queue plus whether each `Sender`/`Receiver` half is still
allocated.  `Sender::send` fails exactly when the matching `Receiver` is
deallocated; `Receiver::recv` fails exactly when the queue is empty and the
matching `Sender` is deallocated, and blocks when the queue is empty but
the `Sender` is still alive. -/
structure Net : Type where
  q1 : List Msg
  q2 : List Msg
  sendAlive1 : Bool
  recvAlive1 : Bool
  sendAlive2 : Bool
  recvAlive2 : Bool
deriving DecidableEq, Repr

def Net.queueOf (net : Net) (i : Nat) : List Msg :=
  if i = 1 then net.q1 else net.q2

def Net.setQueue (net : Net) (i : Nat) (q : List Msg) : Net :=
  if i = 1 then { net with q1 := q } else { net with q2 := q }

def Net.recvAliveOf (net : Net) (i : Nat) : Bool :=
  if i = 1 then net.recvAlive1 else net.recvAlive2

def Net.sendAliveOf (net : Net) (i : Nat) : Bool :=
  if i = 1 then net.sendAlive1 else net.sendAlive2

/-- The session-typed channel of lib.rs line 76:
`Chan<E, T>(Sender<Box<u8>>, Receiver<Box<u8>>, PhantomData<(E, T)>)`.
`tx` and `rx` identify which mpsc channel the `Sender` and the `Receiver`
belong to; `env` and `proto` are the value-level rendering of the phantom
environment stack `E` and protocol `T`. -/
structure Chan : Type where
  tx : Nat
  rx : Nat
  env : List Proto
  proto : Proto
deriving DecidableEq, Repr

/-- Result of a channel operation.  lib.rs operations return plain values
(`Chan<E, T>`, tuples, `Result<Chan, Chan>` for the two offer branches):
their signatures contain no error alternative, so a failed underlying mpsc
call can only `panic` through the `unwrap` in `unsafe_write_chan` /
`unsafe_read_chan` (lines 82, 89), and an empty queue with a live peer
blocks inside `Receiver::recv`.  `illTyped` marks a method that does not
exist at the current protocol state (a compile error in Rust). -/
inductive OpResult (α : Type) : Type where
  | ok (a : α) : OpResult α
  | panicked : OpResult α
  | blocked : OpResult α
  | illTyped : OpResult α
deriving DecidableEq, Repr

/-- lib.rs lines 78-83 `unsafe_write_chan`: transmute the `Sender` to the
payload type and `tx.send(Box::new(x)).unwrap()`.  The send fails (and the
unwrap panics) exactly when the receiving half of the queue `c.tx` feeds
has been deallocated; otherwise the box is appended to that queue. -/
def unsafe_write_chan (c : Chan) (m : Msg) (net : Net) : OpResult Net :=
  if net.recvAliveOf c.tx then
    OpResult.ok (net.setQueue c.tx (net.queueOf c.tx ++ [m]))
  else
    OpResult.panicked

/-- lib.rs lines 85-90 `unsafe_read_chan`: transmute the `Receiver` and
`*rx.recv().unwrap()`.  A buffered box is returned even if the sender is
gone; on an empty queue the call blocks while the sending half is alive and
panics (unwrap of `Err(RecvError)`) once it is deallocated. -/
def unsafe_read_chan (c : Chan) (net : Net) : OpResult (Msg × Net) :=
  match net.queueOf c.rx with
  | m :: rest => OpResult.ok (m, net.setQueue c.rx rest)
  | [] =>
    if net.sendAliveOf c.rx then OpResult.blocked else OpResult.panicked

/-- lib.rs lines 163-170 `Chan::send` (only on `Chan<E, Send<A, T>>`):
write the value through `unsafe_write_chan`, then transmute `self` to
`Chan<E, T>` — same `Sender`/`Receiver`, successor protocol. -/
def Chan.send (c : Chan) (v : Nat) (net : Net) : OpResult (Chan × Net) :=
  match c.proto with
  | Proto.send A R =>
    match unsafe_write_chan c (Msg.val A v) net with
    | OpResult.ok net2 => OpResult.ok ({ c with proto := R }, net2)
    | _ => OpResult.panicked
  | _ => OpResult.illTyped

/-- lib.rs lines 172-179 `Chan::recv` (only on `Chan<E, Recv<A, T>>`):
read a box through `unsafe_read_chan`, reinterpret it as the payload type,
and transmute `self` to `Chan<E, T>`.  A box that actually holds the choice
discriminant would be reinterpreted garbage; that is unreachable between
dual endpoints and is marked `illTyped` here. -/
def Chan.recv (c : Chan) (net : Net) : OpResult (Chan × Nat × Net) :=
  match c.proto with
  | Proto.recv _ R =>
    match unsafe_read_chan c net with
    | OpResult.ok (Msg.val _ v, net2) =>
        OpResult.ok ({ c with proto := R }, v, net2)
    | OpResult.ok (Msg.discr _, _) => OpResult.illTyped
    | OpResult.blocked => OpResult.blocked
    | _ => OpResult.panicked
  | _ => OpResult.illTyped

/-- lib.rs lines 181-186 `Chan::sel1` (only on `Chan<E, Choose<R, S>>`):
write the discriminant `true`, transmute to `Chan<E, R>`. -/
def Chan.sel1 (c : Chan) (net : Net) : OpResult (Chan × Net) :=
  match c.proto with
  | Proto.choose R _ =>
    match unsafe_write_chan c (Msg.discr true) net with
    | OpResult.ok net2 => OpResult.ok ({ c with proto := R }, net2)
    | _ => OpResult.panicked
  | _ => OpResult.illTyped

/-- lib.rs lines 188-192 `Chan::sel2` (only on `Chan<E, Choose<R, S>>`):
write the discriminant `false`, transmute to `Chan<E, S>`. -/
def Chan.sel2 (c : Chan) (net : Net) : OpResult (Chan × Net) :=
  match c.proto with
  | Proto.choose _ S =>
    match unsafe_write_chan c (Msg.discr false) net with
    | OpResult.ok net2 => OpResult.ok ({ c with proto := S }, net2)
    | _ => OpResult.panicked
  | _ => OpResult.illTyped

/-- lib.rs lines 244-255 `Chan::offer` (only on `Chan<E, Offer<R, S>>`):
read the boolean discriminant; `true` yields `Ok` at `R` (`Sum.inl`),
`false` yields `Err` at `S` (`Sum.inr`).  A payload box in place of the
discriminant is the unreachable reinterpretation case. -/
def Chan.offer (c : Chan) (net : Net) : OpResult (Sum Chan Chan × Net) :=
  match c.proto with
  | Proto.offer R S =>
    match unsafe_read_chan c net with
    | OpResult.ok (Msg.discr b, net2) =>
        if b then OpResult.ok (Sum.inl { c with proto := R }, net2)
        else OpResult.ok (Sum.inr { c with proto := S }, net2)
    | OpResult.ok (Msg.val _ _, _) => OpResult.illTyped
    | OpResult.blocked => OpResult.blocked
    | _ => OpResult.panicked
  | _ => OpResult.illTyped

/-- lib.rs lines 257-263 `Chan::enter` (only on `Chan<E, Rec<R>>`):
transmute to `Chan<(R, E), R>` — push the body on the environment stack
and continue as the body.  Pure bookkeeping, no transport I/O. -/
def Chan.enter (c : Chan) : Option Chan :=
  match c.proto with
  | Proto.Rec R => some { c with env := R :: c.env, proto := R }
  | _ => none

/-- lib.rs lines 265-270 `Chan::zero` (only on `Chan<(R, E), Var<Z>>`):
transmute to `Chan<(R, E), R>` — continue as the body on top of the
environment stack, which must be non-empty (the Rust receiver type is a
pair, so `Chan<(), Var<Z>>` has no such method). -/
def Chan.zero (c : Chan) : Option Chan :=
  match c.proto, c.env with
  | Proto.var 0, R :: _ => some { c with proto := R }
  | _, _ => none

/-- lib.rs lines 272-277 `Chan::succ` (only on `Chan<(R, E), Var<S<V>>>`):
transmute to `Chan<E, Var<V>>` — pop the top frame off the (necessarily
non-empty) environment stack and decrement the recursion depth. -/
def Chan.succ (c : Chan) : Option Chan :=
  match c.proto, c.env with
  | Proto.var (v + 1), _ :: E => some { c with env := E, proto := Proto.var v }
  | _, _ => none

/-- Iterated `Chan::enter`. -/
def enterN : Nat → Chan → Option Chan
  | 0, c => some c
  | k + 1, c => (Chan.enter c).bind (enterN k)

/-- Iterated `Chan::succ`. -/
def succN : Nat → Chan → Option Chan
  | 0, c => some c
  | k + 1, c => (Chan.succ c).bind (succN k)

/-- `k` directly nested `Rec` layers around `inner`:
`Rec<Rec<... Rec<inner> ...>>`. -/
def nestRec : Nat → Proto → Proto
  | 0, inner => inner
  | k + 1, inner => Proto.Rec (nestRec k inner)

/-- The environment stack built by entering `k` directly nested `Rec`
layers, innermost body first. -/
def recStack (k : Nat) (v : Proto) : List Proto :=
  (List.range k).map (fun i => nestRec i v)

/-- lib.rs lines 293-320 `iselect`: register every channel's `Receiver`
with the runtime `Select`, wait, and translate the reported handle id back
to its position via the enumeration `HashMap`.  Which registered receiver
becomes ready is a runtime matter; it is passed in as `winner`, the
position `Select::wait` reports.  `Select` can only report a registered
handle, so positions outside the list are unreachable (`none`). -/
def iselect (chans : List Chan) (winner : Nat) : Option Nat :=
  if winner < chans.length then some winner else none

/-- lib.rs lines 283-289 `hselect`: `let i = iselect(&chans); let c =
chans.remove(i); (c, chans)`.  `Vec::remove(i)` is `List.eraseIdx i`. -/
def hselect (chans : List Chan) (winner : Nat) :
    Option (Chan × List Chan) :=
  match iselect chans winner with
  | some i =>
    match chans[i]? with
    | some c => some (c, chans.eraseIdx i)
    | none => none
  | none => none

/-- lib.rs lines 358-381 `ChanSelect::wait`: register every stored
`Receiver` with the runtime `Select`, block in `Select::wait`, and return
the tag stored for the reported receiver.  `winner` is the position of the
receiver `Select::wait` reports; with an empty registration list there is
no registered receiver for it to report, so no tag is ever produced
(`Select::wait` never returns) — the return type `T` offers no error
alternative. -/
def chanSelectWait (regs : List (Chan × Nat)) (winner : Nat) : Option Nat :=
  (regs[winner]?).map Prod.snd

/-- Outcome of `request`/`borrow_request` (lib.rs lines 418-435). -/
inductive RequestOutcome : Type where
  | handle (c : Chan) : RequestOutcome
  | noHandle : RequestOutcome
  | blocked : RequestOutcome
deriving DecidableEq, Repr

/-- lib.rs lines 426-435 `borrow_request`: `rx.recv()` on the registration
channel — modelled by its buffered handles `pending` and whether the
sending half is still allocated — then `Ok(c) => Some(transmute(c))`
(retype the received handle to the dual protocol `S` and dual environment
`E2`, as forced by the `where (R, S): Dual, (E, E_): EnvDual` clause) and
`_ => None`.  An empty open registration channel blocks inside `recv`. -/
def borrow_request (pending : List Chan) (senderAlive : Bool)
    (S : Proto) (E2 : List Proto) : RequestOutcome :=
  match pending with
  | c :: _ => RequestOutcome.handle { c with env := E2, proto := S }
  | [] =>
    if senderAlive then RequestOutcome.blocked else RequestOutcome.noHandle

/-- lib.rs lines 418-424 `request`: delegates to `borrow_request`. -/
def request (pending : List Chan) (senderAlive : Bool)
    (S : Proto) (E2 : List Proto) : RequestOutcome :=
  borrow_request pending senderAlive S E2

/-- mpsc.rs line 12 `Value<T>(T)`: a typed payload; the type parameter `T`
is rendered as the `kind` tag. -/
structure Value : Type where
  kind : Nat
  data : Nat
deriving DecidableEq, Repr

/-- mpsc.rs lines 6-9 `Channel { tx: Sender<Box<u8>>, rx: Receiver<Box<u8>> }`:
one endpoint's carrier, modelled by the observable state of the queue its
`tx` feeds (with the liveness of the peer `Receiver`) and of the queue its
`rx` drains (with the liveness of the peer `Sender`). -/
structure Channel : Type where
  txQueue : List Value
  txPeerAlive : Bool
  rxQueue : List Value
  rxPeerAlive : Bool
deriving DecidableEq, Repr

/-- Result of mpsc.rs `ChannelSend::send` for `Value<T>`:
`Result<(), SendError<Box<T>>>` — the error carries the unsent value. -/
inductive ChSendRes : Type where
  | ok (ch : Channel) : ChSendRes
  | sendErr (v : Value) : ChSendRes
deriving DecidableEq, Repr

/-- mpsc.rs lines 14-24: `Value<T>::send` forwards `tx.send(Box::new(self.0))`,
returning `Err(SendError(..))` — not panicking — exactly when the peer
`Receiver` has been deallocated. -/
def Value.send (v : Value) (ch : Channel) : ChSendRes :=
  if ch.txPeerAlive then
    ChSendRes.ok { ch with txQueue := ch.txQueue ++ [v] }
  else
    ChSendRes.sendErr v

/-- Result of mpsc.rs `ChannelRecv::recv` for `Value<T>`:
`Result<Value<T>, RecvError>`; `blocked` is the empty-queue, live-sender
case in which `Receiver::recv` does not return yet. -/
inductive ChRecvRes : Type where
  | ok (v : Value) (ch : Channel) : ChRecvRes
  | recvErr : ChRecvRes
  | blocked : ChRecvRes
deriving DecidableEq, Repr

/-- mpsc.rs lines 26-36: `Value::recv` forwards `rx.recv().map(|v| Value(*v))`,
returning a buffered value if one exists, blocking while the queue is empty
with the peer `Sender` alive, and returning `Err(RecvError)` — not blocking
forever and not panicking — once the queue is empty and the peer `Sender`
is deallocated (the transport is torn down). -/
def Value.recv (ch : Channel) : ChRecvRes :=
  match ch.rxQueue with
  | v :: rest => ChRecvRes.ok v { ch with rxQueue := rest }
  | [] => if ch.rxPeerAlive then ChRecvRes.blocked else ChRecvRes.recvErr

theorem natBeq_comm (a b : Nat) : (a == b) = (b == a) := by
  by_cases h : a = b
  · subst h; rfl
  · have h1 : (a == b) = false := by simp [h]
    have h2 : (b == a) = false := by
      have hba : ¬b = a := fun e => h e.symm
      simp [hba]
    rw [h1, h2]

/-- C2: the duality relation is symmetric: for every pair of protocol
descriptors `P` and `Q`, `P` is dual to `Q` if and only if `Q` is dual to
`P` (the boolean `dual` is a symmetric function). -/
theorem dual_symm (P : Proto) : ∀ Q : Proto, dual P Q = dual Q P := by
  induction P with
  | eps => intro Q; cases Q <;> rfl
  | send A R ih => intro Q; cases Q <;> simp [dual, ih, natBeq_comm A]
  | recv A R ih => intro Q; cases Q <;> simp [dual, ih, natBeq_comm A]
  | choose R S ihR ihS => intro Q; cases Q <;> simp [dual, ihR, ihS]
  | offer R S ihR ihS => intro Q; cases Q <;> simp [dual, ihR, ihS]
  | Rec R ih => intro Q; cases Q <;> simp [dual, ih]
  | var m => intro Q; cases Q <;> simp [dual, natBeq_comm m]

/-- C3: the duality relation satisfies exactly the structural definition:
`Eps` is dual to `Eps`; `Send A R` is dual to `Recv A R2` iff `R` is dual
to `R2`; `Choose R S` is dual to `Offer R2 S2` iff `R` dual `R2` and `S`
dual `S2`; `Rec R` is dual to `Rec R2` iff `R` dual `R2`; and `Var d` is
dual to `Var d2` exactly when the depths `d` and `d2` are equal. -/
theorem dual_structural :
    dual Proto.eps Proto.eps = true
    ∧ (∀ (A : Nat) (R R2 : Proto),
        dual (Proto.send A R) (Proto.recv A R2) = dual R R2)
    ∧ (∀ R S R2 S2 : Proto,
        dual (Proto.choose R S) (Proto.offer R2 S2) = (dual R R2 && dual S S2))
    ∧ (∀ R R2 : Proto, dual (Proto.Rec R) (Proto.Rec R2) = dual R R2)
    ∧ (∀ d d2 : Nat, dual (Proto.var d) (Proto.var d2) = true ↔ d = d2) := by
  refine ⟨rfl, ?_, ?_, ?_, ?_⟩
  · intro A R R2; simp [dual]
  · intro R S R2 S2; rfl
  · intro R R2; rfl
  · intro d d2; simp [dual]

/-- Witness for `dual_symm` at the pair `Send 0 Eps` / `Recv 0 Eps`. -/
theorem dual_symm_w :
    dual (Proto.send 0 Proto.eps) (Proto.recv 0 Proto.eps)
      = dual (Proto.recv 0 Proto.eps) (Proto.send 0 Proto.eps) :=
  dual_symm (Proto.send 0 Proto.eps) (Proto.recv 0 Proto.eps)

/-- Witness for `dual_structural` at depth 3. -/
theorem dual_structural_w : dual (Proto.var 3) (Proto.var 3) = true :=
  (dual_structural.2.2.2.2 3 3).mpr rfl

/-- C1: round-trip fidelity.  For every value `v` of payload kind `A`, a
handle at `Send A R` over mpsc channel 1 that sends `v`, paired with the
dual handle at `Recv A R2` (created by `borrow_accept`/`session_channel`
with the mirrored endpoints), receives a value equal to `v`, and the two
operations advance the handles to the dual continuations `R` and `R2`,
restoring the queue state. -/
theorem send_recv_roundtrip (A v : Nat) (R R2 : Proto) (E E2 : List Proto)
    (net : Net) (hdual : dual (Proto.send A R) (Proto.recv A R2) = true)
    (hq : net.q1 = []) (halive : net.recvAlive1 = true) :
    ∃ netMid,
      Chan.send ⟨1, 2, E, Proto.send A R⟩ v net
        = OpResult.ok (⟨1, 2, E, R⟩, netMid)
      ∧ Chan.recv ⟨2, 1, E2, Proto.recv A R2⟩ netMid
        = OpResult.ok (⟨2, 1, E2, R2⟩, v, net) := by
  obtain ⟨q1, q2, s1, r1, s2, r2⟩ := net
  simp only at hq halive
  subst hq; subst halive
  exact ⟨⟨[Msg.val A v], q2, s1, true, s2, r2⟩, rfl, rfl⟩

/-- Witness for `send_recv_roundtrip` at kind 0, value 42, continuations
`Eps`/`Eps`, empty environments, fresh all-alive network. -/
theorem send_recv_roundtrip_w :
    ∃ netMid,
      Chan.send ⟨1, 2, [], Proto.send 0 Proto.eps⟩ 42
          ⟨[], [], true, true, true, true⟩
        = OpResult.ok (⟨1, 2, [], Proto.eps⟩, netMid)
      ∧ Chan.recv ⟨2, 1, [], Proto.recv 0 Proto.eps⟩ netMid
        = OpResult.ok (⟨2, 1, [], Proto.eps⟩, 42,
            ⟨[], [], true, true, true, true⟩) :=
  send_recv_roundtrip 0 42 Proto.eps Proto.eps [] []
    ⟨[], [], true, true, true, true⟩ (by decide) rfl rfl

/-- C4: branch resolution.  On a dual `Choose R S` / `Offer R2 S2` pair,
selecting left (`sel1`, discriminant `true`) makes the dual `offer` resolve
to the left branch `R2` (`Sum.inl`, the Rust `Ok`); selecting right
(`sel2`, discriminant `false`) makes it resolve to the right branch `S2`
(`Sum.inr`, the Rust `Err`); both runs are fully determined, so no third
outcome exists. -/
theorem choose_offer_resolution (R S R2 S2 : Proto) (E E2 : List Proto)
    (net : Net)
    (hdual : dual (Proto.choose R S) (Proto.offer R2 S2) = true)
    (hq : net.q1 = []) (halive : net.recvAlive1 = true) :
    (∃ netMid,
      Chan.sel1 ⟨1, 2, E, Proto.choose R S⟩ net
        = OpResult.ok (⟨1, 2, E, R⟩, netMid)
      ∧ Chan.offer ⟨2, 1, E2, Proto.offer R2 S2⟩ netMid
        = OpResult.ok (Sum.inl ⟨2, 1, E2, R2⟩, net))
    ∧ (∃ netMid,
      Chan.sel2 ⟨1, 2, E, Proto.choose R S⟩ net
        = OpResult.ok (⟨1, 2, E, S⟩, netMid)
      ∧ Chan.offer ⟨2, 1, E2, Proto.offer R2 S2⟩ netMid
        = OpResult.ok (Sum.inr ⟨2, 1, E2, S2⟩, net)) := by
  obtain ⟨q1, q2, s1, r1, s2, r2⟩ := net
  simp only at hq halive
  subst hq; subst halive
  exact ⟨⟨⟨[Msg.discr true], q2, s1, true, s2, r2⟩, rfl, rfl⟩,
         ⟨⟨[Msg.discr false], q2, s1, true, s2, r2⟩, rfl, rfl⟩⟩

/-- Witness for `choose_offer_resolution` on the dual pair
`Choose Eps Eps` / `Offer Eps Eps` over a fresh all-alive network. -/
theorem choose_offer_resolution_w :
    (∃ netMid,
      Chan.sel1 ⟨1, 2, [], Proto.choose Proto.eps Proto.eps⟩
          ⟨[], [], true, true, true, true⟩
        = OpResult.ok (⟨1, 2, [], Proto.eps⟩, netMid)
      ∧ Chan.offer ⟨2, 1, [], Proto.offer Proto.eps Proto.eps⟩ netMid
        = OpResult.ok (Sum.inl ⟨2, 1, [], Proto.eps⟩,
            ⟨[], [], true, true, true, true⟩))
    ∧ (∃ netMid,
      Chan.sel2 ⟨1, 2, [], Proto.choose Proto.eps Proto.eps⟩
          ⟨[], [], true, true, true, true⟩
        = OpResult.ok (⟨1, 2, [], Proto.eps⟩, netMid)
      ∧ Chan.offer ⟨2, 1, [], Proto.offer Proto.eps Proto.eps⟩ netMid
        = OpResult.ok (Sum.inr ⟨2, 1, [], Proto.eps⟩,
            ⟨[], [], true, true, true, true⟩)) :=
  choose_offer_resolution Proto.eps Proto.eps Proto.eps Proto.eps [] []
    ⟨[], [], true, true, true, true⟩ (by decide) rfl rfl

/-- C5, evaluated at the failing inputs.  In lib.rs a failed underlying
write or a torn-down pending read panics instead of returning a transport
error: `Chan::send` on a handle whose peer `Receiver` is deallocated hits
the `unwrap` in `unsafe_write_chan` (line 82) and panics, and `Chan::recv`
on an empty queue whose `Sender` is deallocated hits the `unwrap` in
`unsafe_read_chan` (line 89) and panics — their return types carry no
error alternative at all.  The repository's own transport impls in mpsc.rs
do surface the failures as values: `Value::send` returns `Err(SendError)`
when the peer `Receiver` is gone and `Value::recv` returns
`Err(RecvError)` when the transport is torn down. -/
theorem transport_failure_panics_in_lib :
    Chan.send ⟨1, 2, [], Proto.send 0 Proto.eps⟩ 7
        ⟨[], [], true, false, true, true⟩ = OpResult.panicked
    ∧ Chan.recv ⟨2, 1, [], Proto.recv 0 Proto.eps⟩
        ⟨[], [], false, true, true, true⟩ = OpResult.panicked
    ∧ Value.send ⟨0, 7⟩ ⟨[], false, [], true⟩ = ChSendRes.sendErr ⟨0, 7⟩
    ∧ Value.recv ⟨[], true, [], false⟩ = ChRecvRes.recvErr :=
  ⟨rfl, rfl, rfl, rfl⟩

/-- C6, evaluated at the failing input.  `ChanSelect::wait` with an empty
registration list never produces a tag: the runtime `Select` has no
registered receiver to report, and the return type `T` of `wait` has no
error alternative, so no `EmptySelection` error can be returned — whatever
position the runtime could report, the result is `none`. -/
theorem empty_selection_no_tag :
    ∀ winner : Nat, chanSelectWait [] winner = none := by
  intro winner
  rfl

/-- C7: for every list of same-protocol receive-state handles and every
position `winner` that the runtime select reports ready (hence the list is
non-empty), `hselect` returns the handle at that position together with the
input list with exactly that handle removed and the relative order of all
the others preserved (`take winner ++ drop (winner + 1)`). -/
theorem hselect_winner_and_rest (chans : List Chan) (winner : Nat)
    (A : Nat) (P : Proto) (hw : winner < chans.length)
    (hP : ∀ c ∈ chans, c.proto = Proto.recv A P) :
    hselect chans winner
      = some (chans.get ⟨winner, hw⟩,
          chans.take winner ++ chans.drop (winner + 1)) := by
  unfold hselect iselect
  rw [if_pos hw]
  simp [List.getElem?_eq_getElem hw, List.eraseIdx_eq_take_drop_succ,
    List.get_eq_getElem]

/-- Witness for `hselect_winner_and_rest`: three handles at
`Recv 0 Eps`, winner at position 1. -/
theorem hselect_winner_and_rest_w :
    hselect
        [⟨1, 2, [], Proto.recv 0 Proto.eps⟩,
         ⟨3, 4, [], Proto.recv 0 Proto.eps⟩,
         ⟨5, 6, [], Proto.recv 0 Proto.eps⟩] 1
      = some (⟨3, 4, [], Proto.recv 0 Proto.eps⟩,
          [⟨1, 2, [], Proto.recv 0 Proto.eps⟩,
           ⟨5, 6, [], Proto.recv 0 Proto.eps⟩]) :=
  hselect_winner_and_rest
    [⟨1, 2, [], Proto.recv 0 Proto.eps⟩,
     ⟨3, 4, [], Proto.recv 0 Proto.eps⟩,
     ⟨5, 6, [], Proto.recv 0 Proto.eps⟩] 1 0 Proto.eps
    (by decide) (by decide)

theorem enterN_nestRec (k : Nat) (v : Proto) :
    ∀ (tx rx : Nat) (E : List Proto),
    enterN k ⟨tx, rx, E, nestRec k v⟩
      = some ⟨tx, rx, recStack k v ++ E, v⟩ := by
  induction k with
  | zero => intro tx rx E; simp [enterN, nestRec, recStack]
  | succ k ih =>
    intro tx rx E
    have hs : recStack (k + 1) v = recStack k v ++ [nestRec k v] := by
      simp [recStack, List.range_succ]
    simp [enterN, nestRec, Chan.enter, ih, hs]

theorem succN_pop (k : Nat) :
    ∀ (d tx rx : Nat) (xs rest : List Proto), xs.length = k →
    succN k ⟨tx, rx, xs ++ rest, Proto.var (k + d)⟩
      = some ⟨tx, rx, rest, Proto.var d⟩ := by
  induction k with
  | zero =>
    intro d tx rx xs rest hlen
    have hxs : xs = [] := List.length_eq_zero.mp hlen
    subst hxs
    simp [succN, Nat.zero_add]
  | succ k ih =>
    intro d tx rx xs rest hlen
    cases xs with
    | nil => simp at hlen
    | cons x xs2 =>
      have hlen2 : xs2.length = k := by simpa using hlen
      have harith : k + 1 + d = (k + d) + 1 := by omega
      rw [harith]
      simp [succN, Chan.succ, ih d tx rx xs2 rest hlen2]

/-- C8: recursion stack balance.  Entering a tower of `N` nested recursion
bodies (`enter` once, reaching the state `c1` originally entered, then
`N - 1` further enters down to the innermost body `Var (N-1)`) and then
recursing out all `N` layers (`succ` applied `N - 1` times followed by the
final `zero` jump) yields exactly the handle `c1` that was originally
entered — same protocol state and same environment stack.  And a jump can
never pop the environment stack past empty: on an empty environment both
`zero` and `succ` are rejected (no such method exists in Rust, since the
receiver type demands a pair environment). -/
theorem recursion_stack_balance :
    (∀ (N : Nat) (c c1 : Chan), 0 < N →
      c.proto = nestRec N (Proto.var (N - 1)) →
      Chan.enter c = some c1 →
      ((enterN (N - 1) c1).bind (succN (N - 1))).bind Chan.zero = some c1)
    ∧ (∀ c : Chan, c.env = [] → Chan.zero c = none ∧ Chan.succ c = none) := by
  constructor
  · intro N c c1 hN hproto henter
    obtain ⟨M, rfl⟩ : ∃ M, N = M + 1 :=
      ⟨N - 1, (Nat.succ_pred_eq_of_pos hN).symm⟩
    have hM : M + 1 - 1 = M := rfl
    rw [hM] at hproto ⊢
    obtain ⟨tx, rx, E0, P⟩ := c
    simp only at hproto
    subst hproto
    have hc1 : c1
        = ⟨tx, rx, nestRec M (Proto.var M) :: E0, nestRec M (Proto.var M)⟩ := by
      simp only [nestRec, Chan.enter, Option.some.injEq] at henter
      exact henter.symm
    subst hc1
    rw [enterN_nestRec M (Proto.var M) tx rx (nestRec M (Proto.var M) :: E0)]
    have hxs : (recStack M (Proto.var M)).length = M := by
      simp [recStack]
    have hsucc := succN_pop M 0 tx rx (recStack M (Proto.var M))
      (nestRec M (Proto.var M) :: E0) hxs
    rw [Nat.add_zero] at hsucc
    simp only [Option.some_bind]
    rw [hsucc]
    simp [Chan.zero]
  · intro c henv
    obtain ⟨tx, rx, E0, P⟩ := c
    simp only at henv
    subst henv
    cases P with
    | var V => cases V <;> simp [Chan.zero, Chan.succ]
    | _ => simp [Chan.zero, Chan.succ]

/-- Witness for `recursion_stack_balance` at `N = 2`: entering
`Rec (Rec (Var 1))` twice and recursing out two layers returns the state
after the first enter; and on an empty environment `zero` and `succ` at
`Var 0` are rejected. -/
theorem recursion_stack_balance_w :
    ((enterN 1 ⟨1, 2, [nestRec 1 (Proto.var 1)], nestRec 1 (Proto.var 1)⟩).bind
        (succN 1)).bind Chan.zero
      = some ⟨1, 2, [nestRec 1 (Proto.var 1)], nestRec 1 (Proto.var 1)⟩
    ∧ (Chan.zero ⟨1, 2, [], Proto.var 0⟩ = none
      ∧ Chan.succ ⟨1, 2, [], Proto.var 0⟩ = none) :=
  ⟨recursion_stack_balance.1 2 ⟨1, 2, [], nestRec 2 (Proto.var 1)⟩
      ⟨1, 2, [nestRec 1 (Proto.var 1)], nestRec 1 (Proto.var 1)⟩
      (by decide) rfl rfl,
   recursion_stack_balance.2 ⟨1, 2, [], Proto.var 0⟩ rfl⟩

/-- C9: `request` returns no handle when the registration channel has been
closed (sending half deallocated) with no pending handle, and when a
published handle is pending it returns that very handle retyped at the
dual protocol `S` and dual environment `E2` — the same transport endpoint
pair, with the duality demanded by the `where (R, S): Dual,
(E, E_): EnvDual` clause. -/
theorem request_outcomes :
    (∀ (S : Proto) (E2 : List Proto),
      request [] false S E2 = RequestOutcome.noHandle)
    ∧ (∀ (c : Chan) (rest : List Chan) (alive : Bool)
        (S : Proto) (E2 : List Proto),
        dual c.proto S = true → envDual c.env E2 = true →
        request (c :: rest) alive S E2
          = RequestOutcome.handle ⟨c.tx, c.rx, E2, S⟩) := by
  constructor
  · intro S E2; rfl
  · intro c rest alive S E2 hdual henv
    rfl

/-- Witness for `request_outcomes`: the closed-empty case, and a pending
handle at `Send 0 Eps` requested at the dual `Recv 0 Eps`. -/
theorem request_outcomes_w :
    request [] false Proto.eps [] = RequestOutcome.noHandle
    ∧ request [⟨1, 2, [], Proto.send 0 Proto.eps⟩] true
        (Proto.recv 0 Proto.eps) []
      = RequestOutcome.handle ⟨1, 2, [], Proto.recv 0 Proto.eps⟩ :=
  ⟨request_outcomes.1 Proto.eps [],
   request_outcomes.2 ⟨1, 2, [], Proto.send 0 Proto.eps⟩ [] true
     (Proto.recv 0 Proto.eps) [] (by decide) (by decide)⟩

/-- C10: every protocol operation that yields a successor handle (`send`,
`recv`, `sel1`, `sel2`, `offer`, `enter`, `zero`, `succ`) returns a handle
with the same underlying transport endpoints — the identical
`Sender`/`Receiver` pair — as the handle it consumed; only the protocol
and environment annotations change. -/
theorem ops_preserve_endpoints (c : Chan) (v : Nat) (net : Net) :
    (∀ c2 net2, Chan.send c v net = OpResult.ok (c2, net2) →
      c2.tx = c.tx ∧ c2.rx = c.rx)
    ∧ (∀ c2 x net2, Chan.recv c net = OpResult.ok (c2, x, net2) →
      c2.tx = c.tx ∧ c2.rx = c.rx)
    ∧ (∀ c2 net2, Chan.sel1 c net = OpResult.ok (c2, net2) →
      c2.tx = c.tx ∧ c2.rx = c.rx)
    ∧ (∀ c2 net2, Chan.sel2 c net = OpResult.ok (c2, net2) →
      c2.tx = c.tx ∧ c2.rx = c.rx)
    ∧ (∀ s net2, Chan.offer c net = OpResult.ok (s, net2) →
      (∀ c2, s = Sum.inl c2 → c2.tx = c.tx ∧ c2.rx = c.rx)
      ∧ (∀ c2, s = Sum.inr c2 → c2.tx = c.tx ∧ c2.rx = c.rx))
    ∧ (∀ c2, Chan.enter c = some c2 → c2.tx = c.tx ∧ c2.rx = c.rx)
    ∧ (∀ c2, Chan.zero c = some c2 → c2.tx = c.tx ∧ c2.rx = c.rx)
    ∧ (∀ c2, Chan.succ c = some c2 → c2.tx = c.tx ∧ c2.rx = c.rx) := by
  obtain ⟨tx, rx, E0, P⟩ := c
  refine ⟨?_, ?_, ?_, ?_, ?_, ?_, ?_, ?_⟩
  · intro c2 net2 h
    unfold Chan.send at h
    split at h <;> try simp at h
    split at h <;> simp at h
    obtain ⟨h1, h2⟩ := h
    subst h1
    exact ⟨rfl, rfl⟩
  · intro c2 x net2 h
    unfold Chan.recv at h
    split at h <;> try simp at h
    split at h <;> simp at h
    obtain ⟨h1, h2, h3⟩ := h
    subst h1
    exact ⟨rfl, rfl⟩
  · intro c2 net2 h
    unfold Chan.sel1 at h
    split at h <;> try simp at h
    split at h <;> simp at h
    obtain ⟨h1, h2⟩ := h
    subst h1
    exact ⟨rfl, rfl⟩
  · intro c2 net2 h
    unfold Chan.sel2 at h
    split at h <;> try simp at h
    split at h <;> simp at h
    obtain ⟨h1, h2⟩ := h
    subst h1
    exact ⟨rfl, rfl⟩
  · intro s net2 h
    unfold Chan.offer at h
    split at h <;> try simp at h
    split at h <;> try simp at h
    split at h <;> simp at h <;> obtain ⟨h1, h2⟩ := h <;> subst h1
    · constructor
      · intro c2 hc2
        injection hc2 with h3
        subst h3
        exact ⟨rfl, rfl⟩
      · intro c2 hc2
        simp at hc2
    · constructor
      · intro c2 hc2
        simp at hc2
      · intro c2 hc2
        injection hc2 with h3
        subst h3
        exact ⟨rfl, rfl⟩
  · intro c2 h
    unfold Chan.enter at h
    split at h <;> simp at h
    subst h
    exact ⟨rfl, rfl⟩
  · intro c2 h
    unfold Chan.zero at h
    split at h <;> simp at h
    subst h
    exact ⟨rfl, rfl⟩
  · intro c2 h
    unfold Chan.succ at h
    split at h <;> simp at h
    subst h
    exact ⟨rfl, rfl⟩

/-- Witness for `ops_preserve_endpoints`: a concrete `send` on endpoints
(1, 2) yields a successor handle on the same endpoints (1, 2). -/
theorem ops_preserve_endpoints_w :
    Chan.tx ⟨1, 2, [], Proto.eps⟩ = Chan.tx ⟨1, 2, [], Proto.send 0 Proto.eps⟩
    ∧ Chan.rx ⟨1, 2, [], Proto.eps⟩
      = Chan.rx ⟨1, 2, [], Proto.send 0 Proto.eps⟩ :=
  (ops_preserve_endpoints ⟨1, 2, [], Proto.send 0 Proto.eps⟩ 5
      ⟨[], [], true, true, true, true⟩).1
    ⟨1, 2, [], Proto.eps⟩ ⟨[Msg.val 0 5], [], true, true, true, true⟩ rfl

end Sessions
